import Mathlib

/-!
Verification of the fastcp control plane core against its specification.

The development shallowly embeds the Go sources:
  * `internal/sites/manager.go` — the site registry (`Create`, `Update`,
    `Delete`, `Suspend`, `Unsuspend`, `Load`, `Save`, user limits);
  * the Caddyfile generator (`GenerateMainProxy`, `GeneratePHPInstance`,
    `sanitizeName`);
  * `internal/limits/limits.go` — the resource isolation enforcer
    (`applyCgroupLimits`, `applyDiskQuota`).

Go maps are modelled as association lists (`List (String × α)`) with
`lookupA` / `upsert` / `eraseKey` mirroring map read, map assignment and
`delete`.  OS interactions (uuid generation, user lookup, `os.Stat`,
`time.Now`) are parameters gathered in an environment record, and
filesystem side effects are recorded as an explicit effect list.
-/

namespace FastCP

/-- Association-list read, mirroring a Go map read `m[k]`. -/
def lookupA {α : Type} (k : String) : List (String × α) → Option α
  | [] => none
  | (k', v) :: rest => if k = k' then some v else lookupA k rest

/-- Association-list write, mirroring a Go map assignment `m[k] = v`:
replace the entry for `k` when present, otherwise add one. -/
def upsert {α : Type} (k : String) (v : α) : List (String × α) → List (String × α)
  | [] => [(k, v)]
  | (k', v') :: rest => if k' = k then (k, v) :: rest else (k', v') :: upsert k v rest

/-- Association-list removal, mirroring Go `delete(m, k)`. -/
def eraseKey {α : Type} (k : String) : List (String × α) → List (String × α)
  | [] => []
  | (k', v) :: rest => if k' = k then eraseKey k rest else (k', v) :: eraseKey k rest

/-- `filepath.Join` restricted to the clean inputs the manager uses. -/
def joinPath (a b : String) : String := a ++ "/" ++ b

/-- A site record (`models.Site`).  `aliases` and `environment` are
`Option`-valued because Go distinguishes a nil slice/map from a non-nil
one (`Update` checks `updates.Aliases != nil` / `updates.Environment != nil`);
the list inside `environment` is the key/value sequence in the order a
particular run of the Go runtime happens to iterate the map. -/
structure Site where
  id : String
  name : String
  domain : String
  aliases : Option (List String)
  phpVersion : String
  rootPath : String
  publicPath : String
  status : String
  workerMode : Bool
  workerFile : String
  workerNum : Int
  environment : Option (List (String × String))
  userID : String
  createdAt : Nat
  updatedAt : Nat
deriving Repr, DecidableEq

/-- The alias slice as iterated by `range site.Aliases` (nil iterates as empty). -/
def aliasListOf (s : Site) : List String := s.aliases.getD []

/-- Per-tenant limits (`models.UserLimits`). -/
structure UserLimits where
  username : String
  maxSites : Int
  maxDiskMB : Int
  maxRAMMB : Int
  maxCPUPercent : Int
  maxProcesses : Int
deriving Repr, DecidableEq

/-- One PHP runtime instance entry (`models.PHPVersionConfig`). -/
structure PHPVersionConfig where
  version : String
  port : Nat
  adminPort : Nat
  enabled : Bool
deriving Repr, DecidableEq

/-- The parts of `config.Get()` the embedded code reads. -/
structure Config where
  phpVersions : List PHPVersionConfig
  sitesDir : String
  logDir : String
deriving Repr, DecidableEq

/-- Ambient OS facts consumed by the manager: `user.Lookup`-based username
resolution, numeric uid lookup, `os.Stat` existence checks, the GOOS gate,
the uuid that `uuid.New()` would produce, and the current time. -/
structure Env where
  lookupUser : String → String
  uidOf : String → Int
  fileExists : String → Bool
  isLinux : Bool
  freshID : String
  now : Nat

/-- `getUsernameFromID`: empty and "admin" ids resolve to no username,
anything else goes through the OS user database. -/
def getUsernameFromID (env : Env) (userID : String) : String :=
  if userID = "" ∨ userID = "admin" then "" else env.lookupUser userID

/-- `getUIDGID` (uid component): empty and "admin" ids resolve to 0. -/
def getUIDOf (env : Env) (userID : String) : Int :=
  if userID = "" ∨ userID = "admin" then 0 else env.uidOf userID

/-- The registry's in-memory state: the three maps guarded by the
manager's lock (`sites`, `domains`, `userLimits`). -/
structure ManagerState where
  sites : List (String × Site)
  domains : List (String × String)
  userLimits : List (String × UserLimits)
deriving Repr, DecidableEq

def emptyState : ManagerState := ⟨[], [], []⟩

/-- The registry's sentinel errors. -/
inductive SiteErr where
  | siteNotFound
  | domainExists
  | aliasExists (a : String)
  | invalidPHPVersion
  | siteLimitReached
deriving Repr, DecidableEq

/-- Filesystem side effects performed by registry operations. -/
inductive FsEffect where
  | mkdirAll (path : String)
  | writeFile (path : String)
  | chown (path : String)
  | chownTree (path : String)
  | setACL (path : String)
  | saveSites
  | saveLimits
deriving Repr, DecidableEq

/-- Result of one registry operation: the returned value or error, the
in-memory state afterwards, and the filesystem effects performed. -/
structure OpOut (α : Type) where
  result : Except SiteErr α
  state : ManagerState
  effects : List FsEffect
deriving Repr

instance {ε α : Type} [DecidableEq ε] [DecidableEq α] : DecidableEq (Except ε α)
  | .ok a, .ok b =>
      if h : a = b then .isTrue (by rw [h]) else .isFalse (by intro hc; cases hc; exact h rfl)
  | .error a, .error b =>
      if h : a = b then .isTrue (by rw [h]) else .isFalse (by intro hc; cases hc; exact h rfl)
  | .ok _, .error _ => .isFalse (by intro hc; cases hc)
  | .error _, .ok _ => .isFalse (by intro hc; cases hc)

instance {α : Type} [DecidableEq α] : DecidableEq (OpOut α) := by
  intro a b
  cases a; cases b
  exact decidable_of_iff _ (Iff.of_eq (OpOut.mk.injEq _ _ _ _ _ _)).symm

/-- The PHP-version validation loop shared by `Create` and `Update`:
some configured version entry matches and is enabled. -/
def phpVersionValid (cfg : Config) (v : String) : Bool :=
  cfg.phpVersions.any (fun pv => pv.version == v && pv.enabled)

/-- `countUserSitesUnlocked`: number of sites whose `UserID` matches. -/
def countUserSites (st : ManagerState) (userID : String) : Nat :=
  st.sites.countP (fun p => decide (p.2.userID = userID))

/-- The quota guard in `Create`: a non-empty, non-admin owner with stored
limits whose `MaxSites` is positive is rejected when the current count
has reached it. -/
def quotaRejected (env : Env) (st : ManagerState) (site : Site) : Bool :=
  if site.userID = "" then false
  else if site.userID = "admin" then false
  else
    match lookupA (getUsernameFromID env site.userID) st.userLimits with
    | none => false
    | some lim =>
        decide (0 < lim.maxSites ∧ lim.maxSites ≤ (countUserSites st site.userID : Int))

/-- The defaulting block of `Create`: assign an ID when absent, default
`Status` and `PublicPath`, compute `RootPath` from owner and domain when
absent, and stamp both timestamps. -/
def applyCreateDefaults (cfg : Config) (env : Env) (site : Site) : Site :=
  let id := if site.id = "" then env.freshID else site.id
  let status := if site.status = "" then "active" else site.status
  let publicPath := if site.publicPath = "" then "public" else site.publicPath
  let username := getUsernameFromID env site.userID
  let rootPath :=
    if site.rootPath = "" then
      if username ≠ "" ∧ username ≠ "admin" then
        joinPath (joinPath cfg.sitesDir username) site.domain
      else
        joinPath cfg.sitesDir site.domain
    else site.rootPath
  { site with
      id := id, status := status, publicPath := publicPath, rootPath := rootPath,
      createdAt := env.now, updatedAt := env.now }

/-- `createSiteDirectories`: user base directory (with ownership and ACL
on Linux), the site directory tree, and the default landing `index.php`
when none exists yet. -/
def createSiteDirEffects (cfg : Config) (env : Env) (s : Site) : List FsEffect :=
  let username := getUsernameFromID env s.userID
  let uid := getUIDOf env s.userID
  let userBase :=
    if username ≠ "" ∧ username ≠ "admin" then
      [FsEffect.mkdirAll (joinPath cfg.sitesDir username)] ++
        (if env.isLinux then
          [FsEffect.chown (joinPath cfg.sitesDir username),
           FsEffect.setACL (joinPath cfg.sitesDir username)]
         else [])
    else []
  let dirs := [s.rootPath, joinPath s.rootPath s.publicPath,
               joinPath (joinPath cfg.logDir "sites") s.id]
  let dirEffects := (dirs.map (fun d =>
      [FsEffect.mkdirAll d] ++
        (if env.isLinux ∧ 0 < uid then [FsEffect.chown d] else []))).flatten
  let indexPath := joinPath (joinPath s.rootPath s.publicPath) "index.php"
  let landing :=
    if env.fileExists indexPath then []
    else
      [FsEffect.writeFile indexPath] ++
        (if env.isLinux ∧ 0 < uid then [FsEffect.chown indexPath] else [])
  let recursiveOwn := if env.isLinux ∧ 0 < uid then [FsEffect.chownTree s.rootPath] else []
  userBase ++ dirEffects ++ landing ++ recursiveOwn

/-- Register a created site in both indices (`m.sites[site.ID] = site`,
the domain entry, and one entry per alias). -/
def insertSite (st : ManagerState) (s : Site) : ManagerState :=
  { st with
      sites := upsert s.id s st.sites,
      domains := (aliasListOf s).foldl (fun d a => upsert a s.id d)
                   (upsert s.domain s.id st.domains) }

/-- `Manager.Create`: conflict check on domain then aliases, quota check,
PHP-version validation, defaulting, directory materialization, index
update and snapshot rewrite — in the source's order, with each failing
check returning before any mutation. -/
def create (cfg : Config) (env : Env) (st : ManagerState) (site : Site) : OpOut Site :=
  if (lookupA site.domain st.domains).isSome then
    ⟨.error .domainExists, st, []⟩
  else
    match (aliasListOf site).find? (fun a => (lookupA a st.domains).isSome) with
    | some a => ⟨.error (.aliasExists a), st, []⟩
    | none =>
      if quotaRejected env st site then
        ⟨.error .siteLimitReached, st, []⟩
      else if !(phpVersionValid cfg site.phpVersion) then
        ⟨.error .invalidPHPVersion, st, []⟩
      else
        let s := applyCreateDefaults cfg env site
        ⟨.ok s, insertSite st s, createSiteDirEffects cfg env s ++ [.saveSites]⟩

/-- Store the (pointer-mutated) site record and the current domain map
back into the state; in Go the map entry aliases the mutated pointer, so
this happens implicitly at every point of `Update`. -/
def commitSite (st : ManagerState) (id : String) (s : Site) (d : List (String × String)) :
    ManagerState :=
  { st with sites := upsert id s st.sites, domains := d }

/-- Outcome of the alias re-indexing loop: a conflict on one alias (with
the domain map as mutated so far) or the completed domain map. -/
inductive AliasLoopOut where
  | conflict (a : String) (d : List (String × String))
  | done (d : List (String × String))
deriving Repr, DecidableEq

/-- The alias re-indexing loop of `Update`: for each new alias, fail if it
is claimed by a different site, otherwise map it; on failure the mappings
added so far (and the prior removal of the old aliases) remain. -/
def addAliasesLoop (id : String) :
    List String → List (String × String) → AliasLoopOut
  | [], d => .done d
  | a :: rest, d =>
      match lookupA a d with
      | some j =>
          if j ≠ id then .conflict a d else addAliasesLoop id rest (upsert a id d)
      | none => addAliasesLoop id rest (upsert a id d)

/-- Outcome of the domain-change step of `Update`. -/
inductive DomainStepOut where
  | err (e : SiteErr)
  | changed (s : Site) (d : List (String × String))
deriving Repr, DecidableEq

/-- The domain-change step of `Update`: a non-empty, different new domain
is checked against the index, then the old mapping is removed and the
new one added. -/
def domainStep (st : ManagerState) (id : String) (updates site : Site) : DomainStepOut :=
  if updates.domain ≠ "" ∧ updates.domain ≠ site.domain then
    if (lookupA updates.domain st.domains).isSome then .err .domainExists
    else .changed { site with domain := updates.domain }
           (upsert updates.domain id (eraseKey site.domain st.domains))
  else .changed site st.domains

/-- The field merges at the tail of `Update`: `PublicPath` and `Status`
only when non-empty, `WorkerMode` unconditionally, `WorkerFile` when
non-empty, `WorkerNum` when positive, `Environment` when non-nil, and
the `UpdatedAt` stamp. -/
def mergeTail (env : Env) (s0 : Site) (updates : Site) : Site :=
  let s1 := if updates.publicPath ≠ "" then { s0 with publicPath := updates.publicPath } else s0
  let s2 := if updates.status ≠ "" then { s1 with status := updates.status } else s1
  let s3 := { s2 with workerMode := updates.workerMode }
  let s4 := if updates.workerFile ≠ "" then { s3 with workerFile := updates.workerFile } else s3
  let s5 := if 0 < updates.workerNum then { s4 with workerNum := updates.workerNum } else s4
  let s6 := match updates.environment with
            | some e => { s5 with environment := some e }
            | none => s5
  { s6 with updatedAt := env.now }

/-- Tail of `Update` after the alias step: merge the remaining fields,
commit and persist. -/
def finishUpdate (env : Env) (st : ManagerState) (id : String) (s0 : Site)
    (d : List (String × String)) (updates : Site) : OpOut Site :=
  ⟨.ok (mergeTail env s0 updates), commitSite st id (mergeTail env s0 updates) d, [.saveSites]⟩

/-- The alias portion of `Update`: with a nil patch slice the aliases are
untouched; otherwise the old alias mappings are removed, the new ones
added one by one (failing on a conflict with the partially mutated map
kept), and on success the slice is stored. -/
def aliasStep (env : Env) (st : ManagerState) (id : String) (s3 : Site)
    (d1 : List (String × String)) (updates : Site) : OpOut Site :=
  match updates.aliases with
  | some newAliases =>
      (match addAliasesLoop id newAliases
          ((aliasListOf s3).foldl (fun d a => eraseKey a d) d1) with
       | .conflict a dPartial =>
           ⟨.error (.aliasExists a), commitSite st id s3 dPartial, []⟩
       | .done d2 => finishUpdate env st id { s3 with aliases := some newAliases } d2 updates)
  | none => finishUpdate env st id s3 d1 updates

/-- The name merge of `Update` (skipped on an empty patch name). -/
def nameStep (s : Site) (updates : Site) : Site :=
  if updates.name ≠ "" then { s with name := updates.name } else s

/-- The PHP-version merge of `Update` (skipped on an empty patch version;
validation happens before this in `update`). -/
def phpStep (s : Site) (updates : Site) : Site :=
  if updates.phpVersion ≠ "" then { s with phpVersion := updates.phpVersion } else s

/-- `Manager.Update`: partial update in the source's order — domain
change (with conflict check), name, PHP version (validated), aliases
(old mappings removed, new ones added one by one), then the remaining
fields.  Early error returns keep whatever was already mutated, exactly
as the Go code's in-place pointer and map mutations do. -/
def update (cfg : Config) (env : Env) (st : ManagerState) (id : String) (updates : Site) :
    OpOut Site :=
  match lookupA id st.sites with
  | none => ⟨.error .siteNotFound, st, []⟩
  | some site =>
    match domainStep st id updates site with
    | .err e => ⟨.error e, st, []⟩
    | .changed s1 d1 =>
      if updates.phpVersion ≠ "" ∧ !(phpVersionValid cfg updates.phpVersion) then
        ⟨.error .invalidPHPVersion, commitSite st id (nameStep s1 updates) d1, []⟩
      else
        aliasStep env st id (phpStep (nameStep s1 updates) updates) d1 updates

/-- `Manager.Delete`: drop the domain and alias mappings and the entry. -/
def deleteSite (st : ManagerState) (id : String) : OpOut Unit :=
  match lookupA id st.sites with
  | none => ⟨.error .siteNotFound, st, []⟩
  | some site =>
    ⟨.ok (),
     { st with
         sites := eraseKey id st.sites,
         domains := (aliasListOf site).foldl (fun d a => eraseKey a d)
                      (eraseKey site.domain st.domains) },
     [.saveSites]⟩

/-- `Manager.Suspend`. -/
def suspend (env : Env) (st : ManagerState) (id : String) : OpOut Unit :=
  match lookupA id st.sites with
  | none => ⟨.error .siteNotFound, st, []⟩
  | some site =>
      ⟨.ok (), commitSite st id { site with status := "suspended", updatedAt := env.now }
        st.domains, [.saveSites]⟩

/-- `Manager.Unsuspend`. -/
def unsuspend (env : Env) (st : ManagerState) (id : String) : OpOut Unit :=
  match lookupA id st.sites with
  | none => ⟨.error .siteNotFound, st, []⟩
  | some site =>
      ⟨.ok (), commitSite st id { site with status := "active", updatedAt := env.now }
        st.domains, [.saveSites]⟩

/-- `Manager.Save` / `saveUnlocked`: the snapshot content is the list of
site records (JSON encoding treated as faithful). -/
def saveSitesList (st : ManagerState) : List Site := st.sites.map Prod.snd

/-- `Manager.Load` (sites part): rebuild both indices from the snapshot;
a missing file (`none`) leaves the registry as it was.  The Go loop
updates `m.sites` and `m.domains` per record; the two folds below are
that same loop split by component. -/
def loadSites (st : ManagerState) (data : Option (List Site)) : ManagerState :=
  match data with
  | none => st
  | some sites =>
    { st with
        sites := sites.foldl (fun m s => upsert s.id s m) st.sites,
        domains := sites.foldl
          (fun d s => (aliasListOf s).foldl (fun d a => upsert a s.id d)
                        (upsert s.domain s.id d))
          st.domains }

/-- `Save` followed by `Load` into a fresh manager. -/
def roundTrip (st : ManagerState) : ManagerState :=
  loadSites emptyState (some (saveSitesList st))

/-- `Manager.SetUserLimit`. -/
def setUserLimit (st : ManagerState) (lim : UserLimits) : ManagerState × List FsEffect :=
  ({ st with userLimits := upsert lim.username lim st.userLimits }, [.saveLimits])

/-- Whether a site claims a hostname as its domain or one of its aliases. -/
def claimsHost (s : Site) (h : String) : Bool :=
  decide (h = s.domain ∨ h ∈ aliasListOf s)

/-- The registry's index-consistency invariant: the domain index maps a
hostname to a site ID exactly when that site claims the hostname. -/
def indexConsistent (st : ManagerState) : Prop :=
  ∀ h i, lookupA h st.domains = some i ↔
    ∃ s, lookupA i st.sites = some s ∧ (h = s.domain ∨ h ∈ aliasListOf s)

/-- Well-formedness of the sites map: keys are distinct and each record
is stored under its own ID. -/
def sitesWF (st : ManagerState) : Prop :=
  (st.sites.map Prod.fst).Nodup ∧ ∀ p ∈ st.sites, p.2.id = p.1

/-! ## Configuration generator (Caddyfile rendering) -/

/-- Left-to-right concatenation of rendered pieces, mirroring successive
`buf.WriteString` calls. -/
def concatS (l : List String) : String := l.foldr (fun a b => a ++ b) ""

/-- `sanitizeName`: `strings.ReplaceAll(strings.ReplaceAll(s, "-", "_"), ".", "_")`.
A `ReplaceAll` whose pattern is a single character replaces exactly the
occurrences of that character, i.e. maps it over the characters. -/
def sanitizeName (s : String) : String :=
  ⟨(s.data.map (fun c => if c = '-' then '_' else c)).map
    (fun c => if c = '.' then '_' else c)⟩

/-- `filepath.IsAbs` on Unix: the path starts with a slash. -/
def isAbsPath (p : String) : Bool :=
  match p.data with
  | '/' :: _ => true
  | _ => false

/-- The environment entries as iterated by `range site.Environment`
(a nil map iterates as empty; the list order stands for the iteration
order Go's randomized map traversal happens to produce). -/
def envListOf (s : Site) : List (String × String) := s.environment.getD []

/-- The `env KEY VALUE` lines emitted inside a `php_server` block. -/
def envLines (s : Site) : String :=
  concatS ((envListOf s).map (fun kv => "\t\t\tenv " ++ kv.1 ++ " " ++ kv.2 ++ "\n"))

/-- The site's document root, `filepath.Join(site.RootPath, site.PublicPath)`. -/
def docRoot (s : Site) : String := joinPath s.rootPath s.publicPath

/-- The worker file resolved against the document root when relative. -/
def resolveWorkerPath (s : Site) : String :=
  if isAbsPath s.workerFile then s.workerFile else joinPath (docRoot s) s.workerFile

/-- The worker count with the `<= 0` fallback to 2. -/
def effWorkerNum (s : Site) : Int := if s.workerNum ≤ 0 then 2 else s.workerNum

/-- The `worker PATH NUM` directive line. -/
def workerLine (s : Site) : String :=
  "\t\t\tworker " ++ resolveWorkerPath s ++ " " ++ toString (effWorkerNum s) ++ "\n"

/-- The execution-mode part of a per-site block: worker mode with an
existence check on the resolved worker file (degrading to plain
`php_server` plus a diagnostic comment when it is missing), otherwise the
per-request directive with optional environment entries. -/
def execDirective (fileExists : String → Bool) (s : Site) : String :=
  if s.workerMode = true ∧ s.workerFile ≠ "" then
    if fileExists (resolveWorkerPath s) then
      "\t\tphp_server \x7b\n" ++ workerLine s ++ envLines s ++ "\t\t\x7d\n"
    else
      "\t\t# WARNING: Worker file not found, falling back to regular mode\n" ++
        "\t\t# Expected: " ++ resolveWorkerPath s ++ "\n" ++ "\t\tphp_server\n"
  else
    "\t\tphp_server" ++
      (if 0 < (envListOf s).length then " \x7b\n" ++ envLines s ++ "\t\t\x7d" else "") ++ "\n"

/-- One per-site block of the per-instance document (the body of the
`for _, site := range versionSites` loop in `GeneratePHPInstance`). -/
def phpSiteBlock (fileExists : String → Bool) (s : Site) : String :=
  let matcherName := sanitizeName s.id
  "\n\t# Site: " ++ s.name ++ " (" ++ s.domain ++ ")\n" ++
    "\t@" ++ matcherName ++ " host " ++
      String.intercalate " " (s.domain :: aliasListOf s) ++ "\n" ++
    "\thandle @" ++ matcherName ++ " \x7b\n" ++
    "\t\troot * " ++ docRoot s ++ "\n" ++
    "\t\tencode zstd br gzip\n" ++
    execDirective fileExists s ++
    "\t\x7d\n"

/-- The global-options header of a per-instance document. -/
def phpInstanceHeader (cfg : Config) (version : String) (adminPort : Nat) : String :=
  "# FastCP PHP " ++ version ++ " Instance Configuration\n" ++
    "# Auto-generated - Do not edit manually\n\n" ++
    "\x7b\n\tadmin localhost:" ++ toString adminPort ++ "\n\t\n\tfrankenphp\n\t\n" ++
    "\tlog \x7b\n\t\toutput file " ++
      joinPath cfg.logDir ("php-" ++ version ++ ".log") ++
      " \x7b\n\t\t\troll_size 100mb\n\t\t\troll_keep 5\n\t\t\x7d\n\t\tformat json\n\t\x7d\n" ++
    "\x7d\n\n"

/-- `Generator.GeneratePHPInstance`: filter to the version's active
sites; with none, a placeholder listening on the port answering 503;
otherwise one server block holding every per-site block and the trailing
404 fallback. -/
def generatePHPInstance (cfg : Config) (fileExists : String → Bool) (version : String)
    (port adminPort : Nat) (sites : List Site) : String :=
  let versionSites := sites.filter (fun s => s.phpVersion == version && s.status == "active")
  let header := phpInstanceHeader cfg version adminPort
  if versionSites.isEmpty then
    header ++ "# No sites configured for PHP " ++ version ++ "\n" ++
      ":" ++ toString port ++ " \x7b\n" ++ "\trespond \"No sites configured\" 503\n" ++ "\x7d\n"
  else
    header ++ ":" ++ toString port ++ " \x7b\n" ++
      concatS (versionSites.map (phpSiteBlock fileExists)) ++
      "\n\t# Default fallback\n\thandle \x7b\n\t\trespond \"Site not found\" 404\n\t\x7d\n" ++
      "\x7d\n"

/-- The `versionPorts` table of `GenerateMainProxy`: version to port of
the enabled entries (later entries overwrite earlier ones, as map
assignment does). -/
def versionPortLookup (phpVersions : List PHPVersionConfig) (v : String) : Option Nat :=
  lookupA v (phpVersions.foldl
    (fun m pv => if pv.enabled then upsert pv.version pv.port m else m) [])

/-- One site block of the front-door document. -/
def mainSiteBlock (s : Site) (port : Nat) : String :=
  "# Site: " ++ s.name ++ " (PHP " ++ s.phpVersion ++ ")\n" ++
    String.intercalate ", " ((s.domain :: aliasListOf s).map (fun d => "http://" ++ d)) ++
    " \x7b\n" ++ "\treverse_proxy localhost:" ++ toString port ++ "\n" ++ "\x7d\n\n"

/-- `Generator.GenerateMainProxy`: global options, a block per active
site whose version has an enabled instance (others silently skipped),
and the catch-all 404 block on the HTTP port. -/
def generateMainProxy (cfg : Config) (sites : List Site)
    (phpVersions : List PHPVersionConfig) (httpPort httpsPort : Nat) : String :=
  let header :=
    "# FastCP Main Proxy Configuration\n# Auto-generated - Do not edit manually\n\n" ++
      "\x7b\n\tadmin localhost:2019\n\t\n" ++
      "\t# Disable automatic HTTPS for local development\n\tauto_https off\n\t\n" ++
      "\t# HTTP port configuration\n\thttp_port " ++ toString httpPort ++
      "\n\thttps_port " ++ toString httpsPort ++ "\n\t\n" ++
      "\tlog \x7b\n\t\toutput file " ++ joinPath cfg.logDir "caddy-proxy.log" ++
      " \x7b\n\t\t\troll_size 100mb\n\t\t\troll_keep 5\n\t\t\x7d\n\t\tformat json\n\t\x7d\n" ++
      "\x7d\n\n"
  let body := concatS (sites.map (fun s =>
    if s.status ≠ "active" then ""
    else
      match versionPortLookup phpVersions s.phpVersion with
      | none => ""
      | some port => mainSiteBlock s port))
  let fallback :=
    "# Default fallback for unmatched domains\n:" ++ toString httpPort ++ " \x7b\n" ++
      "\trespond \"Site not found. Configure your domain in FastCP.\" 404\n" ++ "\x7d\n"
  header ++ body ++ fallback

/-! ## Resource isolation enforcer -/

/-- Ambient OS facts consumed by the limits manager. -/
structure LimitsEnv where
  cgroupV2 : Bool
  hasSetquota : Bool
  lookupUserOK : Bool
  filesystemFor : String → Option String

/-- The cgroup v2 mount point used by the limits manager. -/
def cgroupRoot : String := "/sys/fs/cgroup"

/-- The tenant's cgroup directory, `fastcp-<username>` under the root. -/
def cgroupDirOf (username : String) : String :=
  joinPath cgroupRoot ("fastcp-" ++ username)

/-- `applyCgroupLimits` as the list of cgroup control-file writes it
performs (path, content): nothing without cgroup v2; otherwise the
controller enablement write, then `memory.max`, `cpu.max` and `pids.max`
each only when the corresponding limit is positive.  (The `MkdirAll` of
the cgroup directory is not a control write and is omitted here.) -/
def applyCgroupLimits (env : LimitsEnv) (lim : UserLimits) : List (String × String) :=
  if !env.cgroupV2 then []
  else
    let cgroupDir := cgroupDirOf lim.username
    [(joinPath cgroupRoot "cgroup.subtree_control", "+cpu +memory +pids")] ++
      (if 0 < lim.maxRAMMB then
        [(joinPath cgroupDir "memory.max", toString (lim.maxRAMMB * 1024 * 1024))]
       else []) ++
      (if 0 < lim.maxCPUPercent then
        [(joinPath cgroupDir "cpu.max",
          toString ((lim.maxCPUPercent * 100000).tdiv 100) ++ " " ++ toString (100000 : Int))]
       else []) ++
      (if 0 < lim.maxProcesses then
        [(joinPath cgroupDir "pids.max", toString lim.maxProcesses)]
       else [])

/-- `applyDiskQuota` as the `setquota` invocation it runs, if any: a zero
`MaxDiskMB` skips the sub-control; a missing `setquota` binary or an
undetermined filesystem also run nothing (the Go code logs and returns
nil in those cases; the user-lookup failure path returns an error and
likewise runs no command). -/
def applyDiskQuota (env : LimitsEnv) (lim : UserLimits) : Option (List String) :=
  if lim.maxDiskMB = 0 then none
  else if !env.hasSetquota then none
  else if !env.lookupUserOK then none
  else
    match env.filesystemFor "/var/www" with
    | none => none
    | some fs =>
        some ["setquota", "-u", lim.username,
              toString (lim.maxDiskMB * 1024), toString (lim.maxDiskMB * 1024),
              "100000", "150000", fs]

/-! ## Characters legal in Caddyfile matcher-name tokens

The generated documents are line-structured: tokens are delimited by
whitespace, quotes and braces.  A character from this set inside a
matcher name breaks the token apart and yields a structurally different
document. -/

def caddyTokenBreaker (c : Char) : Bool :=
  c == ' ' || c == '\t' || c == '\n' || c == '\r' || c == '\x22' ||
    c == '\x7b' || c == '\x7d'

/-- `needle` occurs contiguously inside `hay`. -/
def strIn (needle hay : String) : Prop := needle.data <:+: hay.data

/-! ## Concrete scenario inputs used by the counterexamples and witnesses -/

/-- The zero `models.Site` value (what an untouched patch field holds). -/
def emptyPatch : Site :=
  { id := "", name := "", domain := "", aliases := none, phpVersion := "",
    rootPath := "", publicPath := "", status := "", workerMode := false,
    workerFile := "", workerNum := 0, environment := none, userID := "",
    createdAt := 0, updatedAt := 0 }

/-- A configuration with one enabled PHP version, "8.3" on port 9001. -/
def cfg0 : Config := ⟨[⟨"8.3", 9001, 2019, true⟩], "/var/www", "/var/log/fastcp"⟩

/-- An OS environment with no resolvable users, every file existing,
a non-Linux host and time 0. -/
def env0 : Env := ⟨fun _ => "", fun _ => 0, fun _ => true, false, "fresh", 0⟩

def siteA0 : Site :=
  { emptyPatch with id := "A", name := "A", domain := "a.test",
                    aliases := some ["x.test"], phpVersion := "8.3",
                    rootPath := "r", publicPath := "p" }

def siteB0 : Site :=
  { emptyPatch with id := "B", name := "B", domain := "b.test",
                    phpVersion := "8.3", rootPath := "r2", publicPath := "p" }

/-- Registry holding site A (domain `a.test`, alias `x.test`). -/
def stA : ManagerState := (create cfg0 env0 emptyState siteA0).state

/-- Registry holding A and B (domain `b.test`), reached by two `Create`s. -/
def stAB : ManagerState := (create cfg0 env0 stA siteB0).state

/-- Site A as stored (the `Status` default applied by `Create`). -/
def siteAstored : Site := { siteA0 with status := "active" }

/-- A patch giving A the alias `b.test`, which site B already claims. -/
def patchAliases : Site := { emptyPatch with aliases := some ["b.test"] }

/-- The state after the failing `Update(A, patchAliases)` call. -/
def stBad : ManagerState := (update cfg0 env0 stAB "A" patchAliases).state

/-- A patch exercising the replaced fields: `Status` and `WorkerMode`. -/
def patch1 : Site := { emptyPatch with status := "suspended", workerMode := true }

/-- Site A after `Update(A, patch1)`. -/
def siteA1 : Site := { siteAstored with status := "suspended", workerMode := true }

/-- A create request whose domain collides with A and whose PHP version
is not configured. -/
def siteConflictPHP : Site := { emptyPatch with domain := "a.test", phpVersion := "9.9" }

/-- A conflict-free create request with an unconfigured PHP version. -/
def siteBadPHP : Site := { emptyPatch with domain := "c.test", phpVersion := "9.9" }

/-- An OS environment resolving each user ID to itself as username. -/
def envU : Env := { env0 with lookupUser := fun s => s }

/-- Limits for owner `u`: at most one site. -/
def limU : UserLimits := ⟨"u", 1, 0, 0, 0, 0⟩

/-- Owner `u`'s existing site. -/
def siteU1 : Site :=
  { emptyPatch with id := "S1", name := "s1", domain := "u.test",
                    phpVersion := "8.3", rootPath := "r", status := "active",
                    userID := "u" }

/-- Registry with owner `u` at their one-site quota. -/
def stU : ManagerState := ⟨[("S1", siteU1)], [("u.test", "S1")], [("u", limU)]⟩

/-- A second site for `u` whose domain collides with the first. -/
def siteU2c : Site := { emptyPatch with domain := "u.test", phpVersion := "8.3", userID := "u" }

/-- A second, conflict-free site for `u`. -/
def siteU2f : Site :=
  { emptyPatch with id := "S2", domain := "v.test", phpVersion := "8.3",
                    rootPath := "r", userID := "u" }

/-- A site with a two-entry environment map in one iteration order... -/
def siteEnvB : Site :=
  { emptyPatch with id := "s1", name := "n", domain := "d.test", phpVersion := "8.3",
                    rootPath := "r", publicPath := "p", status := "active",
                    environment := some [("B", "2"), ("A", "1")] }

/-- ...and the same site with the map iterated in the other order. -/
def siteEnvA : Site := { siteEnvB with environment := some [("A", "1"), ("B", "2")] }

/-- An `os.Stat` oracle under which no path exists. -/
def feF : String → Bool := fun _ => false

/-- An `os.Stat` oracle under which every path exists. -/
def feT : String → Bool := fun _ => true

/-- A well-formed one-site registry with a consistent index. -/
def siteW : Site := { emptyPatch with id := "A", domain := "a.test", status := "active" }

def stW : ManagerState := ⟨[("A", siteW)], [("a.test", "A")], []⟩

/-- An active worker-mode site with a relative worker file and
non-positive `WorkerNum`. -/
def siteWk : Site :=
  { emptyPatch with id := "w", name := "w", domain := "w.test", phpVersion := "8.3",
                    rootPath := "r", publicPath := "p", status := "active",
                    workerMode := true, workerFile := "f.php", workerNum := 0 }

/-- Limits with every dimension set to 0 (unconstrained). -/
def limZ : UserLimits := ⟨"u", 0, 0, 0, 0, 0⟩

/-- A Linux host with cgroup v2 and the quota tooling available. -/
def envL : LimitsEnv := ⟨true, true, true, fun _ => some "/dev/sda1"⟩

end FastCP

namespace FastCP

/-! ## Claim theorems -/

set_option maxRecDepth 10000 in
/-- Claim C1 (code bug): a Create or Update that would map a hostname
already claimed by a different site is required to fail with the
conflict error AND leave the registry's site set, domain index and
snapshot untouched.  The Update path violates the second half: on the
reachable registry `stAB` (A owns `a.test`/`x.test`, B owns `b.test`),
`Update(A, {Aliases: [b.test]})` returns the alias-conflict error but
has already deleted A's alias mapping `x.test` from the domain index. -/
theorem c1_conflicting_update_not_atomic :
    (update cfg0 env0 stAB "A" patchAliases).result = .error (.aliasExists "b.test") ∧
    lookupA "x.test" stAB.domains = some "A" ∧
    lookupA "x.test" (update cfg0 env0 stAB "A" patchAliases).state.domains = none ∧
    (update cfg0 env0 stAB "A" patchAliases).state ≠ stAB := by decide

set_option maxRecDepth 10000 in
/-- Claim C2 (code bug): the render functions are required to map
identical input (including the per-site Environment map) to
byte-identical output.  `GeneratePHPInstance` iterates the Environment
with Go's randomized map traversal: the same map presented in two of its
possible iteration orders (a permutation of the same key/value pairs)
renders to different bytes. -/
theorem c2_env_order_changes_bytes :
    siteEnvA = { siteEnvB with environment := some [("A", "1"), ("B", "2")] } ∧
    [(("A" : String), ("1" : String)), ("B", "2")].Perm [("B", "2"), ("A", "1")] ∧
    generatePHPInstance cfg0 feF "8.3" 9001 2019 [siteEnvA] ≠
      generatePHPInstance cfg0 feF "8.3" 9001 2019 [siteEnvB] :=
  ⟨rfl, by decide, by decide⟩

set_option maxRecDepth 10000 in
/-- Claim C10 (code bug): index consistency is claimed to be an
invariant of every reachable state, but the state `stBad` — reached from
the empty registry by `Create(A)`, `Create(B)` and the failing
`Update(A, {Aliases: [b.test]})` — stores A with alias `x.test` while the
domain index no longer maps `x.test`. -/
theorem c10_index_invariant_violated : ¬ indexConsistent stBad := by
  intro hc
  exact absurd ((hc "x.test" "A").mpr ⟨siteAstored, by decide, Or.inr (by decide)⟩)
    (by decide)

set_option maxRecDepth 10000 in
/-- Claim C3, counterexample: the claim asserts the stored Status equals
`patch.Status` even when the patch carries the empty string.  Updating A
with the zero patch succeeds and leaves Status `"active"`, not `""`. -/
theorem c3_status_not_whole_value :
    emptyPatch.status = "" ∧
    (update cfg0 env0 stA "A" emptyPatch).result = .ok siteAstored ∧
    siteAstored.status ≠ emptyPatch.status := by decide

set_option maxRecDepth 10000 in
/-- Claim C4, counterexample: the claim asserts every Create with an
invalid PHP version returns the invalid-runtime-version error, but the
domain-conflict check runs first: a request with both defects returns
the conflict error. -/
theorem c4_conflict_precedes_php_check :
    phpVersionValid cfg0 siteConflictPHP.phpVersion = false ∧
    (create cfg0 env0 stA siteConflictPHP).result = .error .domainExists ∧
    (create cfg0 env0 stA siteConflictPHP).result ≠ .error .invalidPHPVersion := by decide

set_option maxRecDepth 10000 in
/-- Claim C6, counterexample: the claim asserts Create fails with the
quota error exactly when a non-exempt, limited owner is at their limit,
but the domain-conflict check runs first: owner `u` is at their quota
(1 of 1 sites) and still receives the conflict error. -/
theorem c6_conflict_precedes_quota :
    siteU2c.userID ≠ "" ∧ siteU2c.userID ≠ "admin" ∧
    lookupA (getUsernameFromID envU siteU2c.userID) stU.userLimits = some limU ∧
    0 < limU.maxSites ∧ limU.maxSites ≤ (countUserSites stU siteU2c.userID : Int) ∧
    (create cfg0 envU stU siteU2c).result = .error .domainExists ∧
    (create cfg0 envU stU siteU2c).result ≠ .error .siteLimitReached := by decide

/-- Claim C5, counterexample: `sanitizeName` replaces only `-` and `.`,
so the site ID `"a b"` yields the matcher name `"a b"`, which still
contains a token-breaking space — not every illegal character is
replaced. -/
theorem c5_sanitize_incomplete :
    sanitizeName "a b" = "a b" ∧
    ¬ (∀ c ∈ (sanitizeName "a b").data, caddyTokenBreaker c = false) := by decide

set_option maxRecDepth 10000 in
/-- Claim C7, counterexample: the round trip is claimed to reconstruct
an identical site set and domain index for every registry state, but on
the reachable state `stBad` (corrupted by a failing Update) `Load`
rebuilds the index from the site records and thereby restores the
mapping `x.test -> A` that the live index had lost. -/
theorem c7_roundtrip_fails_on_corrupted_index :
    lookupA "x.test" stBad.domains = none ∧
    lookupA "x.test" (roundTrip stBad).domains = some "A" ∧
    roundTrip stBad ≠ stBad := by decide



theorem mergeTail_workerMode (env : Env) (s u : Site) :
    (mergeTail env s u).workerMode = u.workerMode := by
  unfold mergeTail; split <;> split <;> split <;> split <;> split <;> simp_all

theorem mergeTail_status (env : Env) (s u : Site) :
    (mergeTail env s u).status = if u.status = "" then s.status else u.status := by
  unfold mergeTail; split <;> split <;> split <;> split <;> split <;> simp_all

theorem mergeTail_name (env : Env) (s u : Site) :
    (mergeTail env s u).name = s.name := by
  unfold mergeTail; split <;> split <;> split <;> split <;> split <;> simp_all

theorem mergeTail_publicPath (env : Env) (s u : Site) :
    (mergeTail env s u).publicPath = if u.publicPath = "" then s.publicPath else u.publicPath := by
  unfold mergeTail; split <;> split <;> split <;> split <;> split <;> simp_all

theorem mergeTail_workerFile (env : Env) (s u : Site) :
    (mergeTail env s u).workerFile = if u.workerFile = "" then s.workerFile else u.workerFile := by
  unfold mergeTail; split <;> split <;> split <;> split <;> split <;> simp_all

theorem mergeTail_workerNum (env : Env) (s u : Site) :
    (mergeTail env s u).workerNum = if 0 < u.workerNum then u.workerNum else s.workerNum := by
  unfold mergeTail; split <;> split <;> split <;> split <;> split <;> simp_all

theorem mergeTail_aliases (env : Env) (s u : Site) :
    (mergeTail env s u).aliases = s.aliases := by
  unfold mergeTail; split <;> split <;> split <;> split <;> split <;> simp_all

theorem mergeTail_environment (env : Env) (s u : Site) :
    (mergeTail env s u).environment =
      (match u.environment with | some e => some e | none => s.environment) := by
  unfold mergeTail; split <;> split <;> split <;> split <;> split <;> simp_all

theorem mergeTail_domain (env : Env) (s u : Site) :
    (mergeTail env s u).domain = s.domain := by
  unfold mergeTail; split <;> split <;> split <;> split <;> split <;> simp_all

theorem mergeTail_phpVersion (env : Env) (s u : Site) :
    (mergeTail env s u).phpVersion = s.phpVersion := by
  unfold mergeTail; split <;> split <;> split <;> split <;> split <;> simp_all

theorem aliasStep_ok (env : Env) (st : ManagerState) (id : String) (s3 : Site)
    (d1 : List (String × String)) (updates : Site) (s' : Site)
    (h : (aliasStep env st id s3 d1 updates).result = .ok s') :
    (∃ nA, updates.aliases = some nA ∧ s' = mergeTail env { s3 with aliases := some nA } updates) ∨
    (updates.aliases = none ∧ s' = mergeTail env s3 updates) := by
  cases hA : updates.aliases with
  | none =>
    simp only [aliasStep, hA, finishUpdate, Except.ok.injEq] at h
    exact Or.inr ⟨rfl, h.symm⟩
  | some nA =>
    cases haa : addAliasesLoop id nA ((aliasListOf s3).foldl (fun d a => eraseKey a d) d1) with
    | conflict a dP =>
      simp [aliasStep, hA, haa] at h
    | done d2 =>
      simp only [aliasStep, hA, haa, finishUpdate, Except.ok.injEq] at h
      exact Or.inl ⟨nA, rfl, h.symm⟩

theorem domainStep_changed {st : ManagerState} {id : String} {updates site s1 : Site}
    {d1 : List (String × String)}
    (h : domainStep st id updates site = .changed s1 d1) :
    s1.name = site.name ∧ s1.aliases = site.aliases ∧ s1.phpVersion = site.phpVersion ∧
    s1.publicPath = site.publicPath ∧ s1.status = site.status ∧
    s1.workerMode = site.workerMode ∧ s1.workerFile = site.workerFile ∧
    s1.workerNum = site.workerNum ∧ s1.environment = site.environment ∧
    (updates.domain = "" → s1.domain = site.domain) := by
  unfold domainStep at h
  split at h
  · split at h
    · cases h
    · injection h with h2 h3
      subst h2
      rename_i hcond _
      exact ⟨rfl, rfl, rfl, rfl, rfl, rfl, rfl, rfl, rfl, fun hz => absurd hz hcond.1⟩
  · injection h with h2 h3
    subst h2
    exact ⟨rfl, rfl, rfl, rfl, rfl, rfl, rfl, rfl, rfl, fun _ => rfl⟩

theorem nameStep_fields (s updates : Site) :
    (nameStep s updates).status = s.status ∧ (nameStep s updates).domain = s.domain ∧
    (nameStep s updates).aliases = s.aliases ∧ (nameStep s updates).phpVersion = s.phpVersion ∧
    (nameStep s updates).publicPath = s.publicPath ∧
    (nameStep s updates).workerMode = s.workerMode ∧
    (nameStep s updates).workerFile = s.workerFile ∧
    (nameStep s updates).workerNum = s.workerNum ∧
    (nameStep s updates).environment = s.environment ∧
    (updates.name = "" → (nameStep s updates).name = s.name) := by
  unfold nameStep
  split <;> simp_all

theorem phpStep_fields (s updates : Site) :
    (phpStep s updates).status = s.status ∧ (phpStep s updates).domain = s.domain ∧
    (phpStep s updates).aliases = s.aliases ∧ (phpStep s updates).name = s.name ∧
    (phpStep s updates).publicPath = s.publicPath ∧
    (phpStep s updates).workerMode = s.workerMode ∧
    (phpStep s updates).workerFile = s.workerFile ∧
    (phpStep s updates).workerNum = s.workerNum ∧
    (phpStep s updates).environment = s.environment ∧
    (updates.phpVersion = "" → (phpStep s updates).phpVersion = s.phpVersion) := by
  unfold phpStep
  split <;> simp_all

/-- Claim C3 (amended): after a successful `Update(id, patch)` the stored
site's `WorkerMode` equals `patch.WorkerMode` (false overwrites true),
`Status` is replaced only when `patch.Status` is non-empty (an empty
patch status leaves the stored status unchanged — refuting the
claim's "even when patch.Status is the empty string", see
`c3_status_not_whole_value`), and the other empty/zero string or
nil-collection patch fields are left unchanged. -/
theorem c3_update_merge_semantics (cfg : Config) (env : Env) (st : ManagerState)
    (id : String) (patch s0 s' : Site)
    (h0 : lookupA id st.sites = some s0)
    (h1 : (update cfg env st id patch).result = .ok s') :
    s'.workerMode = patch.workerMode ∧
    s'.status = (if patch.status = "" then s0.status else patch.status) ∧
    (patch.name = "" → s'.name = s0.name) ∧
    (patch.publicPath = "" → s'.publicPath = s0.publicPath) ∧
    (patch.workerFile = "" → s'.workerFile = s0.workerFile) ∧
    (patch.workerNum ≤ 0 → s'.workerNum = s0.workerNum) ∧
    (patch.aliases = none → s'.aliases = s0.aliases) ∧
    (patch.environment = none → s'.environment = s0.environment) ∧
    (patch.domain = "" → s'.domain = s0.domain) ∧
    (patch.phpVersion = "" → s'.phpVersion = s0.phpVersion) := by
  unfold update at h1
  simp only [h0] at h1
  cases hds : domainStep st id patch s0 with
  | err e =>
    simp only [hds] at h1
    exact absurd h1 (by simp)
  | changed s1 d1 =>
    simp only [hds] at h1
    obtain ⟨hn1, hal1, hpv1, hpp1, hst1, hwm1, hwf1, hwn1, henv1, hdm1⟩ := domainStep_changed hds
    by_cases hv : patch.phpVersion ≠ "" ∧ (!phpVersionValid cfg patch.phpVersion) = true
    · rw [if_pos hv] at h1
      exact absurd h1 (by simp)
    · rw [if_neg hv] at h1
      obtain ⟨hns, hnd, hna, hnp, hnpp, hnwm, hnwf, hnwn, hne, hnn⟩ :=
        nameStep_fields s1 patch
      obtain ⟨hps, hpd, hpa, hpn, hppp, hpwm, hpwf, hpwn, hpe, hpp⟩ :=
        phpStep_fields (nameStep s1 patch) patch
      rcases aliasStep_ok _ _ _ _ _ _ _ h1 with ⟨nA, hNA, rfl⟩ | ⟨hNA, rfl⟩ <;>
        refine ⟨?_, ?_, ?_, ?_, ?_, ?_, ?_, ?_, ?_, ?_⟩ <;>
        try intro hz
      all_goals
        first
          | (rw [mergeTail_workerNum, if_neg (by omega)]
             simp_all)
          | simp_all [mergeTail_workerMode, mergeTail_status, mergeTail_name,
              mergeTail_publicPath, mergeTail_workerFile, mergeTail_workerNum,
              mergeTail_aliases, mergeTail_environment, mergeTail_domain,
              mergeTail_phpVersion]



set_option maxRecDepth 10000 in
/-- Witness for C3 at a concrete successful update. -/
theorem c3_update_merge_semantics_witness :
    lookupA "A" stA.sites = some siteAstored ∧
    (update cfg0 env0 stA "A" patch1).result = .ok siteA1 ∧
    (siteA1.workerMode = patch1.workerMode ∧
     siteA1.status = (if patch1.status = "" then siteAstored.status else patch1.status) ∧
     (patch1.name = "" → siteA1.name = siteAstored.name) ∧
     (patch1.publicPath = "" → siteA1.publicPath = siteAstored.publicPath) ∧
     (patch1.workerFile = "" → siteA1.workerFile = siteAstored.workerFile) ∧
     (patch1.workerNum ≤ 0 → siteA1.workerNum = siteAstored.workerNum) ∧
     (patch1.aliases = none → siteA1.aliases = siteAstored.aliases) ∧
     (patch1.environment = none → siteA1.environment = siteAstored.environment) ∧
     (patch1.domain = "" → siteA1.domain = siteAstored.domain) ∧
     (patch1.phpVersion = "" → siteA1.phpVersion = siteAstored.phpVersion)) :=
  ⟨by decide, by decide,
   c3_update_merge_semantics cfg0 env0 stA "A" patch1 siteAstored siteA1
     (by decide) (by decide)⟩

-- C6
/-- Claim C6 (amended): in the absence of a domain/alias conflict (which
the code checks first, see `c6_conflict_precedes_quota`), a Create by a
non-exempt owner with stored limits whose `MaxSites` is positive fails
with the quota error exactly when the owner's site count has reached
`MaxSites`; and the quota error never occurs for an exempt owner, an
owner without stored limits, or `MaxSites = 0`. -/
theorem c6_quota_check (cfg : Config) (env : Env) (st : ManagerState) (site : Site) :
    (∀ lim, lookupA site.domain st.domains = none →
      (∀ a ∈ aliasListOf site, lookupA a st.domains = none) →
      site.userID ≠ "" → site.userID ≠ "admin" →
      lookupA (getUsernameFromID env site.userID) st.userLimits = some lim →
      0 < lim.maxSites →
      ((create cfg env st site).result = .error .siteLimitReached ↔
        lim.maxSites ≤ (countUserSites st site.userID : Int))) ∧
    ((site.userID = "" ∨ site.userID = "admin" ∨
      lookupA (getUsernameFromID env site.userID) st.userLimits = none ∨
      (∃ lim, lookupA (getUsernameFromID env site.userID) st.userLimits = some lim ∧
        lim.maxSites = 0)) →
      (create cfg env st site).result ≠ .error .siteLimitReached) := by
  constructor
  · intro lim hd ha hu hadm hl hpos
    have hfind : (aliasListOf site).find? (fun a => (lookupA a st.domains).isSome) = none :=
      List.find?_eq_none.mpr (fun a haa => by simp [ha a haa])
    have hq : quotaRejected env st site = true ↔
        lim.maxSites ≤ (countUserSites st site.userID : Int) := by
      unfold quotaRejected
      rw [if_neg hu, if_neg hadm, hl]
      simp [hpos]
    by_cases hqr : quotaRejected env st site = true
    · simp only [create, hd, hfind, hqr]
      simp only [Option.isSome_none, Bool.false_eq_true, if_false, if_true]
      exact iff_of_true trivial (hq.mp hqr)
    · rw [Bool.not_eq_true] at hqr
      simp only [create, hd, hfind, hqr]
      simp only [Option.isSome_none, Bool.false_eq_true, if_false]
      apply iff_of_false
      · split <;> simp
      · intro hc
        exact absurd (hq.mpr hc) (by simp [hqr])
  · intro hdisj
    have hq : quotaRejected env st site = false := by
      unfold quotaRejected
      rcases hdisj with h | h | h | ⟨lim, hl, h0⟩
      · simp [h]
      · simp [h]
      · simp only [h]
        split_ifs <;> rfl
      · simp only [hl, h0]
        split_ifs <;> rfl
    intro hres
    unfold create at hres
    rw [hq] at hres
    split at hres
    · simp at hres
    · split at hres
      · simp at hres
      · simp only [Bool.false_eq_true, if_false] at hres
        split at hres <;> simp at hres



/-- Witness for C6: owner `u` at quota, conflict-free create request. -/
theorem c6_quota_check_witness :
    lookupA siteU2f.domain stU.domains = none ∧
    (∀ a ∈ aliasListOf siteU2f, lookupA a stU.domains = none) ∧
    siteU2f.userID ≠ "" ∧ siteU2f.userID ≠ "admin" ∧
    lookupA (getUsernameFromID envU siteU2f.userID) stU.userLimits = some limU ∧
    0 < limU.maxSites ∧
    ((create cfg0 envU stU siteU2f).result = .error .siteLimitReached ↔
      limU.maxSites ≤ (countUserSites stU siteU2f.userID : Int)) :=
  ⟨by decide, by decide, by decide, by decide, by decide, by decide,
   (c6_quota_check cfg0 envU stU siteU2f).1 limU (by decide) (by decide) (by decide)
     (by decide) (by decide) (by decide)⟩



theorem data_append (s t : String) : (s ++ t).data = s.data ++ t.data := rfl

theorem str_ext {s t : String} (h : s.data = t.data) : s = t := by
  cases s; cases t; cases h; rfl

theorem strIn_trans {a b c : String} (h1 : strIn a b) (h2 : strIn b c) : strIn a c :=
  List.IsInfix.trans h1 h2

theorem strIn_extend {n pre mid post : String} (h : strIn n mid) :
    strIn n (pre ++ mid ++ post) := by
  rcases h with ⟨s, t, hst⟩
  exact ⟨pre.data ++ s, t ++ post.data, by
    simp only [data_append, ← hst, List.append_assoc]⟩

theorem strIn_concatS {α : Type} (f : α → String) {x : α} {l : List α} (hx : x ∈ l) :
    strIn (f x) (concatS (l.map f)) := by
  induction l with
  | nil => cases hx
  | cons a t ih =>
    rcases List.mem_cons.mp hx with rfl | hxt
    · exact ⟨[], (concatS (t.map f)).data, by simp [concatS, data_append]⟩
    · rcases ih hxt with ⟨s, u, hsu⟩
      exact ⟨(f a).data ++ s, u, by
        simp only [List.map_cons, concatS, List.foldr_cons, data_append, List.append_assoc, hsu]⟩

/-- Claim C8 (confirmed): for every active worker-mode site with a
non-empty `WorkerFile` in the rendered version, the per-instance
document contains the persistent-worker directive with the resolved
path (relative paths joined to the document root) and `WorkerNum`
(2 substituted when non-positive) when the resolved path exists, and
otherwise the diagnostic comment plus the standard `php_server`
directive — generation is total, so a missing worker file never fails. -/
theorem c8_worker_mode_rendering (cfg : Config) (fe : String → Bool) (version : String)
    (port adminPort : Nat) (sites : List Site) (s : Site)
    (hmem : s ∈ sites) (hphp : s.phpVersion = version) (hact : s.status = "active")
    (hwm : s.workerMode = true) (hwf : s.workerFile ≠ "") :
    (fe (resolveWorkerPath s) = true →
      strIn (workerLine s) (generatePHPInstance cfg fe version port adminPort sites) ∧
      workerLine s = "\t\t\tworker " ++ resolveWorkerPath s ++ " " ++
        toString (if s.workerNum ≤ 0 then (2 : Int) else s.workerNum) ++ "\n") ∧
    (fe (resolveWorkerPath s) = false →
      strIn ("\t\t# WARNING: Worker file not found, falling back to regular mode\n" ++
              "\t\t# Expected: " ++ resolveWorkerPath s ++ "\n" ++ "\t\tphp_server\n")
        (generatePHPInstance cfg fe version port adminPort sites)) := by
  have hvx : s ∈ sites.filter (fun z => z.phpVersion == version && z.status == "active") :=
    List.mem_filter.mpr ⟨hmem, by simp [hphp, hact]⟩
  have hne : (sites.filter (fun z => z.phpVersion == version && z.status == "active")).isEmpty
      = false := by
    rw [List.isEmpty_eq_false]
    exact List.ne_nil_of_mem hvx
  have hblock : strIn (phpSiteBlock fe s)
      (generatePHPInstance cfg fe version port adminPort sites) := by
    simp only [generatePHPInstance]
    rw [hne]
    simp only [Bool.false_eq_true, if_false]
    have h1 := strIn_concatS (phpSiteBlock fe) hvx
    rcases h1 with ⟨u, v, huv⟩
    exact ⟨(phpInstanceHeader cfg version adminPort ++ ":" ++ toString port ++ " \x7b\n").data
        ++ u,
      v ++ ("\n\t# Default fallback\n\thandle \x7b\n\t\trespond \"Site not found\" 404\n\t\x7d\n"
        ++ "\x7d\n").data,
      by simp only [data_append, ← huv, List.append_assoc]⟩
  constructor
  · intro hfe
    refine ⟨?_, rfl⟩
    have hexec : strIn (workerLine s) (phpSiteBlock fe s) := by
      unfold phpSiteBlock execDirective
      rw [if_pos ⟨hwm, hwf⟩, if_pos hfe]
      refine ⟨("\n\t# Site: " ++ s.name ++ " (" ++ s.domain ++ ")\n" ++
        "\t@" ++ sanitizeName s.id ++ " host " ++
          String.intercalate " " (s.domain :: aliasListOf s) ++ "\n" ++
        "\thandle @" ++ sanitizeName s.id ++ " \x7b\n" ++
        "\t\troot * " ++ docRoot s ++ "\n" ++
        "\t\tencode zstd br gzip\n" ++ "\t\tphp_server \x7b\n").data,
        (envLines s ++ "\t\t\x7d\n" ++ "\t\x7d\n").data, ?_⟩
      simp only [data_append, List.append_assoc]
    exact strIn_trans hexec hblock
  · intro hfe
    have hexec : strIn ("\t\t# WARNING: Worker file not found, falling back to regular mode\n" ++
        "\t\t# Expected: " ++ resolveWorkerPath s ++ "\n" ++ "\t\tphp_server\n")
        (phpSiteBlock fe s) := by
      unfold phpSiteBlock execDirective
      rw [if_pos ⟨hwm, hwf⟩, if_neg (by simp [hfe])]
      refine ⟨("\n\t# Site: " ++ s.name ++ " (" ++ s.domain ++ ")\n" ++
        "\t@" ++ sanitizeName s.id ++ " host " ++
          String.intercalate " " (s.domain :: aliasListOf s) ++ "\n" ++
        "\thandle @" ++ sanitizeName s.id ++ " \x7b\n" ++
        "\t\troot * " ++ docRoot s ++ "\n" ++
        "\t\tencode zstd br gzip\n").data,
        ("\t\x7d\n" : String).data, ?_⟩
      simp only [data_append, List.append_assoc]
    exact strIn_trans hexec hblock



/-- Witness for C8 at a concrete worker-mode site whose file exists. -/
theorem c8_worker_mode_rendering_witness :
    siteWk ∈ [siteWk] ∧ siteWk.phpVersion = "8.3" ∧ siteWk.status = "active" ∧
    siteWk.workerMode = true ∧ siteWk.workerFile ≠ "" ∧
    ((feT (resolveWorkerPath siteWk) = true →
      strIn (workerLine siteWk) (generatePHPInstance cfg0 feT "8.3" 9001 2019 [siteWk]) ∧
      workerLine siteWk = "\t\t\tworker " ++ resolveWorkerPath siteWk ++ " " ++
        toString (if siteWk.workerNum ≤ 0 then (2 : Int) else siteWk.workerNum) ++ "\n") ∧
     (feT (resolveWorkerPath siteWk) = false →
      strIn ("\t\t# WARNING: Worker file not found, falling back to regular mode\n" ++
              "\t\t# Expected: " ++ resolveWorkerPath siteWk ++ "\n" ++ "\t\tphp_server\n")
        (generatePHPInstance cfg0 feT "8.3" 9001 2019 [siteWk]))) :=
  ⟨by simp, rfl, rfl, rfl, by decide,
   c8_worker_mode_rendering cfg0 feT "8.3" 9001 2019 [siteWk] siteWk (by simp) rfl rfl rfl
     (by decide)⟩

/-! C7 machinery: association-list lemmas and the index rebuild. -/

theorem lookupA_upsert {α : Type} (k h : String) (v : α) (d : List (String × α)) :
    lookupA h (upsert k v d) = if h = k then some v else lookupA h d := by
  induction d with
  | nil => simp [upsert, lookupA]
  | cons p rest ih =>
    obtain ⟨k', v'⟩ := p
    by_cases hk : k' = k
    · subst hk
      simp only [upsert, if_pos rfl]
      by_cases hh : h = k' <;> simp [lookupA, hh]
    · simp only [upsert, if_neg hk]
      by_cases hh : h = k'
      · subst hh
        simp [lookupA, hk]
      · simp [lookupA, hh, ih]

theorem lookupA_mem {α : Type} {k : String} {v : α} {d : List (String × α)}
    (h : lookupA k d = some v) : (k, v) ∈ d := by
  induction d with
  | nil => simp [lookupA] at h
  | cons p rest ih =>
    obtain ⟨k', v'⟩ := p
    by_cases hh : k = k'
    · subst hh
      simp [lookupA] at h
      subst h
      exact List.mem_cons_self _ _
    · simp only [lookupA, if_neg hh] at h
      exact List.mem_cons_of_mem _ (ih h)

theorem lookupA_of_mem_nodup {α : Type} {k : String} {v : α} {d : List (String × α)}
    (hmem : (k, v) ∈ d) (hnd : (d.map Prod.fst).Nodup) : lookupA k d = some v := by
  induction d with
  | nil => cases hmem
  | cons p rest ih =>
    obtain ⟨k', v'⟩ := p
    rcases List.mem_cons.mp hmem with heq | hmem'
    · cases heq
      simp [lookupA]
    · have hk : k ≠ k' := by
        intro hc
        subst hc
        have hin : k ∈ rest.map Prod.fst := List.mem_map.mpr ⟨(k, v), hmem', rfl⟩
        simp only [List.map_cons, List.nodup_cons] at hnd
        exact hnd.1 hin
      simp only [lookupA, if_neg hk]
      exact ih hmem' (by simp only [List.map_cons, List.nodup_cons] at hnd; exact hnd.2)

theorem upsert_not_mem {α : Type} {k : String} (v : α) {d : List (String × α)}
    (h : k ∉ d.map Prod.fst) : upsert k v d = d ++ [(k, v)] := by
  induction d with
  | nil => rfl
  | cons p rest ih =>
    obtain ⟨k', v'⟩ := p
    simp only [List.map_cons, List.mem_cons, not_or] at h
    have hne : ¬ k' = k := fun hc => h.1 hc.symm
    simp only [upsert, if_neg hne, List.cons_append]
    rw [ih h.2]

theorem foldl_upsert_rebuild (l : List (String × Site)) (acc : List (String × Site))
    (hid : ∀ p ∈ l, p.2.id = p.1) (hnd : (l.map Prod.fst).Nodup)
    (hfresh : ∀ p ∈ l, p.1 ∉ acc.map Prod.fst) :
    (l.map Prod.snd).foldl (fun m s => upsert s.id s m) acc = acc ++ l := by
  induction l generalizing acc with
  | nil => simp
  | cons p rest ih =>
    obtain ⟨k, s⟩ := p
    have hks : s.id = k := hid (k, s) (List.mem_cons_self _ _)
    simp only [List.map_cons, List.foldl_cons, hks]
    rw [upsert_not_mem s (hfresh (k, s) (List.mem_cons_self _ _))]
    have hid' : ∀ p ∈ rest, p.2.id = p.1 := fun p hp => hid p (List.mem_cons_of_mem _ hp)
    have hnd' : (rest.map Prod.fst).Nodup := by
      simp only [List.map_cons, List.nodup_cons] at hnd
      exact hnd.2
    have hfresh' : ∀ p ∈ rest, p.1 ∉ (acc ++ [(k, s)]).map Prod.fst := by
      intro p hp
      simp only [List.map_append, List.map_cons, List.map_nil, List.mem_append,
        List.mem_singleton, not_or]
      refine ⟨fun hc => hfresh p (List.mem_cons_of_mem _ hp) hc, ?_⟩
      intro hc
      simp only [List.map_cons, List.nodup_cons] at hnd
      exact hnd.1 (hc ▸ List.mem_map.mpr ⟨p, hp, rfl⟩)
    rw [ih (acc ++ [(k, s)]) hid' hnd' hfresh']
    simp



theorem lookupA_aliasFold (l : List String) (i h : String) (d : List (String × String)) :
    lookupA h (l.foldl (fun d a => upsert a i d) d) =
      if h ∈ l then some i else lookupA h d := by
  induction l generalizing d with
  | nil => simp
  | cons a t ih =>
    simp only [List.foldl_cons]
    rw [ih]
    by_cases hht : h ∈ t
    · simp [hht]
    · simp only [if_neg hht]
      rw [lookupA_upsert]
      by_cases hha : h = a
      · simp [hha]
      · simp [hha, List.mem_cons, hht]

theorem lookupA_siteStep (s : Site) (h : String) (d : List (String × String)) :
    lookupA h ((aliasListOf s).foldl (fun d a => upsert a s.id d) (upsert s.domain s.id d)) =
      if h = s.domain ∨ h ∈ aliasListOf s then some s.id else lookupA h d := by
  rw [lookupA_aliasFold, lookupA_upsert]
  by_cases h1 : h ∈ aliasListOf s
  · simp [h1]
  · by_cases h2 : h = s.domain <;> simp [h1, h2]

theorem lookupA_domFold_none (sl : List Site) (h : String) (d : List (String × String))
    (hnone : ∀ s ∈ sl, ¬(h = s.domain ∨ h ∈ aliasListOf s)) :
    lookupA h (sl.foldl
      (fun d s => (aliasListOf s).foldl (fun d a => upsert a s.id d) (upsert s.domain s.id d))
      d) = lookupA h d := by
  induction sl generalizing d with
  | nil => rfl
  | cons a t ih =>
    simp only [List.foldl_cons]
    rw [ih _ (fun s hs => hnone s (List.mem_cons_of_mem _ hs)), lookupA_siteStep,
      if_neg (hnone a (List.mem_cons_self _ _))]

theorem lookupA_domFold_claim (sl : List Site) (h : String) (s : Site)
    (hmem : s ∈ sl) (hclaim : h = s.domain ∨ h ∈ aliasListOf s)
    (huniq : ∀ s' ∈ sl, (h = s'.domain ∨ h ∈ aliasListOf s') → s' = s)
    (d : List (String × String)) :
    lookupA h (sl.foldl
      (fun d s => (aliasListOf s).foldl (fun d a => upsert a s.id d) (upsert s.domain s.id d))
      d) = some s.id := by
  induction sl generalizing d with
  | nil => cases hmem
  | cons a t ih =>
    simp only [List.foldl_cons]
    by_cases hct : ∃ s' ∈ t, (h = s'.domain ∨ h ∈ aliasListOf s')
    · obtain ⟨s', hs't, hs'c⟩ := hct
      have hs's : s' = s := huniq s' (List.mem_cons_of_mem _ hs't) hs'c
      subst hs's
      exact ih hs't (fun s'' hs'' hc => huniq s'' (List.mem_cons_of_mem _ hs'') hc) _
    · have hnone : ∀ s' ∈ t, ¬(h = s'.domain ∨ h ∈ aliasListOf s') :=
        fun s' hs' hc => hct ⟨s', hs', hc⟩
      rw [lookupA_domFold_none t h _ hnone, lookupA_siteStep]
      have hsa : s = a := by
        rcases List.mem_cons.mp hmem with rfl | hst
        · rfl
        · exact absurd hclaim (hnone s hst)
      subst hsa
      rw [if_pos hclaim]

/-- Claim C7 (amended): for every well-formed registry state whose
domain index is consistent with its site set (which a failing `Update`
can break, see `c7_roundtrip_fails_on_corrupted_index`), `Save`
followed by `Load` into a fresh manager reconstructs the identical
site map and an extensionally identical domain index. -/
theorem c7_save_load_roundtrip (st : ManagerState)
    (hwf : sitesWF st) (hcon : indexConsistent st) :
    (roundTrip st).sites = st.sites ∧
    ∀ h, lookupA h (roundTrip st).domains = lookupA h st.domains := by
  obtain ⟨hnd, hid⟩ := hwf
  constructor
  · show ((saveSitesList st).foldl (fun m s => upsert s.id s m) []) = st.sites
    unfold saveSitesList
    rw [foldl_upsert_rebuild st.sites [] hid hnd (by simp)]
    simp
  · intro h
    show lookupA h ((saveSitesList st).foldl
      (fun d s => (aliasListOf s).foldl (fun d a => upsert a s.id d) (upsert s.domain s.id d))
      []) = lookupA h st.domains
    cases hdq : lookupA h st.domains with
    | some i =>
      obtain ⟨s, hs, hclaim⟩ := (hcon h i).mp hdq
      have hmemp : (i, s) ∈ st.sites := lookupA_mem hs
      have hsid : s.id = i := hid (i, s) hmemp
      have hmem : s ∈ saveSitesList st := List.mem_map.mpr ⟨(i, s), hmemp, rfl⟩
      have huniq : ∀ s' ∈ saveSitesList st, (h = s'.domain ∨ h ∈ aliasListOf s') → s' = s := by
        intro s' hs' hc'
        obtain ⟨⟨k', sv⟩, hmem', heq⟩ := List.mem_map.mp hs'
        cases heq
        have hlk : lookupA k' st.sites = some sv := lookupA_of_mem_nodup hmem' hnd
        have hdk : lookupA h st.domains = some k' := (hcon h k').mpr ⟨sv, hlk, hc'⟩
        rw [hdq] at hdk
        injection hdk with hik
        subst hik
        rw [hs] at hlk
        injection hlk with hss
        exact hss.symm
      rw [lookupA_domFold_claim (saveSitesList st) h s hmem hclaim huniq, hsid]
    | none =>
      have hnone : ∀ s' ∈ saveSitesList st, ¬(h = s'.domain ∨ h ∈ aliasListOf s') := by
        intro s' hs' hc'
        obtain ⟨⟨k', sv⟩, hmem', heq⟩ := List.mem_map.mp hs'
        cases heq
        have hlk : lookupA k' st.sites = some sv := lookupA_of_mem_nodup hmem' hnd
        have hdk : lookupA h st.domains = some k' := (hcon h k').mpr ⟨sv, hlk, hc'⟩
        rw [hdq] at hdk
        cases hdk
      rw [lookupA_domFold_none _ _ _ hnone]
      rfl



theorem stW_consistent : indexConsistent stW := by
  intro h i
  constructor
  · intro hl
    by_cases hh : h = "a.test"
    · subst hh
      simp only [stW, lookupA, if_pos rfl, if_true, Option.some.injEq] at hl
      subst hl
      exact ⟨siteW, by decide, Or.inl (by decide)⟩
    · simp only [stW, lookupA, if_neg hh] at hl
      cases hl
  · rintro ⟨s, hs, hclaim⟩
    by_cases hi : i = "A"
    · subst hi
      simp only [stW, lookupA, if_pos rfl, if_true, Option.some.injEq] at hs
      subst hs
      rcases hclaim with rfl | hal
      · decide
      · simp [aliasListOf, siteW, emptyPatch] at hal
    · simp only [stW, lookupA, if_neg hi] at hs
      cases hs

/-- Witness for C7 at a concrete consistent one-site registry. -/
theorem c7_save_load_roundtrip_witness :
    sitesWF stW ∧ indexConsistent stW ∧
    ((roundTrip stW).sites = stW.sites ∧
     ∀ h, lookupA h (roundTrip stW).domains = lookupA h stW.domains) := by
  have hwf : sitesWF stW := ⟨by decide, by decide⟩
  exact ⟨hwf, stW_consistent, c7_save_load_roundtrip stW hwf stW_consistent⟩

/-! ## Helper lemmas on strings and paths -/

theorem joinPath_data (a b : String) :
    (joinPath a b).data = a.data ++ '/' :: b.data := by
  simp [joinPath, data_append]

theorem str_length_data (s : String) : s.length = s.data.length := rfl

theorem joinPath_len (a b : String) :
    (joinPath a b).length = a.length + 1 + b.length := by
  rw [str_length_data, joinPath_data, List.length_append, List.length_cons,
    str_length_data a, str_length_data b]
  omega

theorem joinPath_right_inj {a b c : String} (h : joinPath a b = joinPath a c) : b = c := by
  have hd := congrArg String.data h
  rw [joinPath_data, joinPath_data] at hd
  exact str_ext (by injection (List.append_cancel_left hd))

theorem tenant_file_ne_subtree (u f : String) :
    joinPath (cgroupDirOf u) f ≠ joinPath cgroupRoot "cgroup.subtree_control" := by
  intro h
  have h15 : (joinPath (cgroupDirOf u) f).data.get? 15 =
      (joinPath cgroupRoot "cgroup.subtree_control").data.get? 15 :=
    congrArg (fun l => l.get? 15) (congrArg String.data h)
  have hl : (joinPath (cgroupDirOf u) f).data.get? 15 = some 'f' := by
    rw [joinPath_data]
    rfl
  have hr : (joinPath cgroupRoot "cgroup.subtree_control").data.get? 15 = some 'c' := by decide
  rw [hl, hr] at h15
  simp at h15

/-- Claim C9 (confirmed): a limit value of 0 writes no control for that
dimension — no `memory.max`, `cpu.max` or `pids.max` write into the
tenant's cgroup, and no `setquota` invocation, when the corresponding
`UserLimits` field is zero. -/
theorem c9_zero_limits_write_nothing (env : LimitsEnv) (lim : UserLimits) :
    (lim.maxRAMMB = 0 → ∀ c,
      (joinPath (cgroupDirOf lim.username) "memory.max", c) ∉ applyCgroupLimits env lim) ∧
    (lim.maxCPUPercent = 0 → ∀ c,
      (joinPath (cgroupDirOf lim.username) "cpu.max", c) ∉ applyCgroupLimits env lim) ∧
    (lim.maxProcesses = 0 → ∀ c,
      (joinPath (cgroupDirOf lim.username) "pids.max", c) ∉ applyCgroupLimits env lim) ∧
    (lim.maxDiskMB = 0 → applyDiskQuota env lim = none) := by
  refine ⟨?_, ?_, ?_, ?_⟩
  · intro h c hmem
    unfold applyCgroupLimits at hmem
    split at hmem
    · simp at hmem
    · rw [h] at hmem
      simp only [lt_irrefl, if_false, List.append_nil, List.nil_append, List.cons_append,
        List.mem_append, List.mem_cons, List.not_mem_nil, or_false, List.mem_singleton] at hmem
      rcases hmem with hmem | hmem | hmem
      · exact tenant_file_ne_subtree lim.username "memory.max" (congrArg Prod.fst hmem)
      · split at hmem
        · rw [List.mem_singleton] at hmem
          have hpe := joinPath_right_inj (congrArg Prod.fst hmem)
          exact absurd hpe (by decide)
        · simp at hmem
      · split at hmem
        · rw [List.mem_singleton] at hmem
          have hpe := joinPath_right_inj (congrArg Prod.fst hmem)
          exact absurd hpe (by decide)
        · simp at hmem
  · intro h c hmem
    unfold applyCgroupLimits at hmem
    split at hmem
    · simp at hmem
    · rw [h] at hmem
      simp only [lt_irrefl, if_false, List.append_nil, List.nil_append, List.cons_append,
        List.mem_append, List.mem_cons, List.not_mem_nil, or_false, List.mem_singleton] at hmem
      rcases hmem with hmem | hmem | hmem
      · exact tenant_file_ne_subtree lim.username "cpu.max" (congrArg Prod.fst hmem)
      · split at hmem
        · rw [List.mem_singleton] at hmem
          have hpe := joinPath_right_inj (congrArg Prod.fst hmem)
          exact absurd hpe (by decide)
        · simp at hmem
      · split at hmem
        · rw [List.mem_singleton] at hmem
          have hpe := joinPath_right_inj (congrArg Prod.fst hmem)
          exact absurd hpe (by decide)
        · simp at hmem
  · intro h c hmem
    unfold applyCgroupLimits at hmem
    split at hmem
    · simp at hmem
    · rw [h] at hmem
      simp only [lt_irrefl, if_false, List.append_nil, List.nil_append, List.cons_append,
        List.mem_append, List.mem_cons, List.not_mem_nil, or_false, List.mem_singleton] at hmem
      rcases hmem with hmem | hmem | hmem
      · exact tenant_file_ne_subtree lim.username "pids.max" (congrArg Prod.fst hmem)
      · split at hmem
        · rw [List.mem_singleton] at hmem
          have hpe := joinPath_right_inj (congrArg Prod.fst hmem)
          exact absurd hpe (by decide)
        · simp at hmem
      · split at hmem
        · rw [List.mem_singleton] at hmem
          have hpe := joinPath_right_inj (congrArg Prod.fst hmem)
          exact absurd hpe (by decide)
        · simp at hmem
  · intro h
    unfold applyDiskQuota
    rw [if_pos h]

/-- Witness for C9 at the all-zero limits record. -/
theorem c9_zero_limits_write_nothing_witness :
    limZ.maxRAMMB = 0 ∧ limZ.maxDiskMB = 0 ∧
    (∀ c, (joinPath (cgroupDirOf limZ.username) "memory.max", c) ∉ applyCgroupLimits envL limZ) ∧
    applyDiskQuota envL limZ = none :=
  ⟨rfl, rfl, (c9_zero_limits_write_nothing envL limZ).1 rfl,
   (c9_zero_limits_write_nothing envL limZ).2.2.2 rfl⟩

theorem alnum_not_breaker (c : Char) (h : c.isAlphanum = true) : caddyTokenBreaker c = false := by
  by_contra hb
  rw [Bool.not_eq_false] at hb
  simp only [caddyTokenBreaker, Bool.or_eq_true, beq_iff_eq] at hb
  rcases hb with ((((((rfl | rfl) | rfl) | rfl) | rfl) | rfl) | rfl) <;>
    exact absurd h (by decide)

/-- Claim C5 (amended): `sanitizeName` replaces exactly the characters
`-` and `.` with `_` and leaves everything else alone; hence for any
site ID drawn from alphanumerics, `-` and `.` (which covers the UUIDs
the registry assigns), the emitted matcher name consists only of
alphanumerics and `_` and contains no token-breaking character.  The
original claim, quantified over arbitrary IDs, is refuted by
`c5_sanitize_incomplete`. -/
theorem c5_sanitize_uuid_alphabet (id : String)
    (h : ∀ c ∈ id.data, c.isAlphanum = true ∨ c = '-' ∨ c = '.') :
    ∀ c ∈ (sanitizeName id).data,
      (c.isAlphanum = true ∨ c = '_') ∧ caddyTokenBreaker c = false := by
  intro c hc
  simp only [sanitizeName] at hc
  rcases List.mem_map.mp hc with ⟨c1, hc1, rfl⟩
  rcases List.mem_map.mp hc1 with ⟨c0, hc0, rfl⟩
  rcases h c0 hc0 with halnum | rfl | rfl
  · have h1 : c0 ≠ '-' := fun hh => by rw [hh] at halnum; exact absurd halnum (by decide)
    have h2 : c0 ≠ '.' := fun hh => by rw [hh] at halnum; exact absurd halnum (by decide)
    rw [if_neg h1, if_neg h2]
    exact ⟨Or.inl halnum, alnum_not_breaker c0 halnum⟩
  · exact ⟨Or.inr (by decide), by decide⟩
  · exact ⟨Or.inr (by decide), by decide⟩

/-- Witness for C5 at a concrete UUID-alphabet ID. -/
theorem c5_sanitize_uuid_alphabet_witness :
    (∀ c ∈ ("ab-12.x" : String).data, c.isAlphanum = true ∨ c = '-' ∨ c = '.') ∧
    (∀ c ∈ (sanitizeName "ab-12.x").data,
      (c.isAlphanum = true ∨ c = '_') ∧ caddyTokenBreaker c = false) :=
  ⟨by decide, c5_sanitize_uuid_alphabet "ab-12.x" (by decide)⟩

/-- Claim C4 (amended): when the domain/alias-conflict check and the
quota check pass, a Create whose PHP version is not an enabled
configured version returns the invalid-version error with the state
untouched and no filesystem effect.  The unqualified claim is refuted by
`c4_conflict_precedes_php_check`. -/
theorem c4_invalid_php_create (cfg : Config) (env : Env) (st : ManagerState) (site : Site)
    (hdom : lookupA site.domain st.domains = none)
    (halias : ∀ a ∈ aliasListOf site, lookupA a st.domains = none)
    (hquota : quotaRejected env st site = false)
    (hphp : phpVersionValid cfg site.phpVersion = false) :
    create cfg env st site = ⟨.error .invalidPHPVersion, st, []⟩ := by
  have hfind : (aliasListOf site).find? (fun a => (lookupA a st.domains).isSome) = none :=
    List.find?_eq_none.mpr (fun a ha => by simp [halias a ha])
  simp [create, hdom, hfind, hquota, hphp]

/-- Witness for C4 at a fresh registry and a bogus PHP version. -/
theorem c4_invalid_php_create_witness :
    lookupA siteBadPHP.domain emptyState.domains = none ∧
    (∀ a ∈ aliasListOf siteBadPHP, lookupA a emptyState.domains = none) ∧
    quotaRejected env0 emptyState siteBadPHP = false ∧
    phpVersionValid cfg0 siteBadPHP.phpVersion = false ∧
    create cfg0 env0 emptyState siteBadPHP = ⟨.error .invalidPHPVersion, emptyState, []⟩ :=
  ⟨by decide, by decide, by decide, by decide,
   c4_invalid_php_create cfg0 env0 emptyState siteBadPHP (by decide) (by decide) (by decide)
     (by decide)⟩

end FastCP
